import Mathlib

/-!
Verification of the issue-review multi-agent analysis core.

This file gives a shallow embedding, in Lean 4, of the pure algorithmic core of
the repository: the coordinator merge and priority scoring
(src/agents/coordinator.py), the shared typed state and its wire serialization
(src/agents/state.py), the technical analyst normalization
(src/agents/technical.py), the persona-panel aggregation
(src/agents/personas.py), the tool-calling loop (src/llm/tools.py), the
LLM-response JSON recovery (src/llm/parsing.py) and the report-level
order-restoring fan-out (src/agents/report_graph.py).

Conventions of the embedding:
- Python dynamic values are modelled by the inductive `PyVal`; Python dicts by
  string-keyed association lists.
- Python strings are Lean `String` (or `List Char` where character scanning is
  needed); the Python string methods used by the code (`upper`, `lower`,
  `replace`, `strip`, `title`, `in`, `find`, `rfind`) are given explicit
  ASCII-faithful definitions.
- `json.loads` is an executable recursive-descent parser over `List Char`,
  faithful for the object/array/string/integer/bool/null fragment actually
  exchanged by the agents (floats and \u escapes are rejected; the try/except
  around every call site means a rejection is indistinguishable from a Python
  `JSONDecodeError` for the properties proved here).
- The two regular expressions of `extract_json_block` are specialized to
  equivalent deterministic scanners (the lazy group and the greedy `\s*` admit
  a direct characterization for these patterns, checked against CPython `re`).
- Effectful collaborators (the LLM client, the thread pool) become explicit
  oracles: the chat client is a function of (call index, tools-enabled flag,
  transcript), the thread pool's nondeterministic completion order an arbitrary
  permutation of the submitted work items. Exceptions that the Python code can
  raise across an embedded boundary are an `Except` error channel.
-/

/-- Dynamic (JSON-like) Python value: the payload type produced by
`json.loads` and threaded through the agents as parsed LLM responses. -/
inductive PyVal where
  | str (s : String)
  | int (n : Int)
  | bool (b : Bool)
  | pynone
  | list (xs : List PyVal)
  | dict (kvs : List (String × PyVal))

/-- Python `isinstance(v, dict)`. -/
def PyVal.isDict : PyVal → Bool
  | .dict _ => true
  | _ => false

/-- Python `str.upper` (ASCII). -/
def pyUpper (s : String) : String := ⟨s.data.map Char.toUpper⟩

/-- Python `str.lower` (ASCII). -/
def pyLower (s : String) : String := ⟨s.data.map Char.toLower⟩

/-- Python `str.replace(" ", "_")`. -/
def pyReplaceSpaceUnderscore (s : String) : String :=
  ⟨s.data.map (fun c => if c = ' ' then '_' else c)⟩

/-- Python `str.replace("_", " ")`. -/
def pyReplaceUnderscoreSpace (s : String) : String :=
  ⟨s.data.map (fun c => if c = '_' then ' ' else c)⟩

/-- Python `str.strip()` whitespace set (ASCII part). -/
def pyIsSpaceChar (c : Char) : Bool :=
  c == ' ' || c == '\t' || c == '\n' || c == '\r' || c == '\x0b' || c == '\x0c'

/-- Python `str.strip()` on a character list. -/
def pyStripChars (s : List Char) : List Char :=
  ((s.dropWhile pyIsSpaceChar).reverse.dropWhile pyIsSpaceChar).reverse

/-- Python `str.strip()`. -/
def pyStrip (s : String) : String := ⟨pyStripChars s.data⟩

/-- Contiguous-substring test on character lists (the empty needle matches). -/
def listIsSub (needle : List Char) : List Char → Bool
  | [] => needle.isEmpty
  | c :: rest => needle.isPrefixOf (c :: rest) || listIsSub needle rest

/-- Python substring test `needle in haystack`. -/
def pyIn (needle haystack : String) : Bool :=
  listIsSub needle.data haystack.data

/-- Python `str.title()`: a letter is uppercased when the previous character
is not a letter, lowercased otherwise (auxiliary walk; the flag records
whether the previous character was a letter). -/
def pyTitleAux : Bool → List Char → List Char
  | _, [] => []
  | prevAlpha, c :: rest =>
      let c2 := if c.isAlpha then (if prevAlpha then c.toLower else c.toUpper) else c
      c2 :: pyTitleAux c.isAlpha rest

/-- Python `str.title()` (ASCII letters). -/
def pyTitle (s : String) : String := ⟨pyTitleAux false s.data⟩

/-- Stable deduplication worker (`seen` accumulates already-kept entries). -/
def pyDedupAux : List String → List String → List String
  | _, [] => []
  | seen, x :: rest =>
      if x ∈ seen then pyDedupAux seen rest else x :: pyDedupAux (x :: seen) rest

/-- Python `list(dict.fromkeys(l))`: deduplicate preserving first occurrence. -/
def pyDedup (l : List String) : List String := pyDedupAux [] l

/-- Overlap classification enum from src/agents/state.py. -/
inductive OverlapLevel where
  | UNIQUE
  | POSSIBLE_OVERLAP
  | UNCLEAR
deriving DecidableEq

/-- String token of the enum (`OverlapLevel.value` in the source). -/
def OverlapLevel.value : OverlapLevel → String
  | .UNIQUE => "unique"
  | .POSSIBLE_OVERLAP => "possible_overlap"
  | .UNCLEAR => "unclear"

/-- `OverlapLevel.from_string`: uppercase, spaces to underscores, unknown
tokens fall back to `UNCLEAR`. -/
def OverlapLevel.from_string (value : String) : OverlapLevel :=
  let normalized := pyReplaceSpaceUnderscore (pyUpper value)
  if normalized = "UNIQUE" then .UNIQUE
  else if normalized = "POSSIBLE_OVERLAP" then .POSSIBLE_OVERLAP
  else if normalized = "UNCLEAR" then .UNCLEAR
  else .UNCLEAR

/-- Development maturity enum from src/agents/state.py. -/
inductive DevelopmentStage where
  | HAS_CODE
  | DETAILED_PLAN
  | DETAILED_CONCEPT
  | CONCEPT_SUMMARY
deriving DecidableEq

/-- String token of the enum. -/
def DevelopmentStage.value : DevelopmentStage → String
  | .HAS_CODE => "has_code"
  | .DETAILED_PLAN => "detailed_plan"
  | .DETAILED_CONCEPT => "detailed_concept"
  | .CONCEPT_SUMMARY => "concept_summary"

/-- `DevelopmentStage.from_string`, unknown tokens fall back to
`CONCEPT_SUMMARY`. -/
def DevelopmentStage.from_string (value : String) : DevelopmentStage :=
  let normalized := pyReplaceSpaceUnderscore (pyUpper value)
  if normalized = "HAS_CODE" then .HAS_CODE
  else if normalized = "DETAILED_PLAN" then .DETAILED_PLAN
  else if normalized = "DETAILED_CONCEPT" then .DETAILED_CONCEPT
  else if normalized = "CONCEPT_SUMMARY" then .CONCEPT_SUMMARY
  else .CONCEPT_SUMMARY

/-- Broad-appeal enum from src/agents/state.py. -/
inductive BroadAppeal where
  | UNIVERSAL
  | BUSINESS_SPECIFIC
  | TECHNICAL_ONLY
deriving DecidableEq

/-- String token of the enum. -/
def BroadAppeal.value : BroadAppeal → String
  | .UNIVERSAL => "universal"
  | .BUSINESS_SPECIFIC => "business_specific"
  | .TECHNICAL_ONLY => "technical_only"

/-- `BroadAppeal.from_string`, unknown tokens fall back to `TECHNICAL_ONLY`. -/
def BroadAppeal.from_string (value : String) : BroadAppeal :=
  let normalized := pyReplaceSpaceUnderscore (pyUpper value)
  if normalized = "UNIVERSAL" then .UNIVERSAL
  else if normalized = "BUSINESS_SPECIFIC" then .BUSINESS_SPECIFIC
  else if normalized = "TECHNICAL_ONLY" then .TECHNICAL_ONLY
  else .TECHNICAL_ONLY

/-- Platform-fit enum from src/agents/state.py. -/
inductive PlatformFit where
  | EXCELLENT
  | GOOD
  | MODERATE
  | POOR
deriving DecidableEq

/-- String token of the enum. -/
def PlatformFit.value : PlatformFit → String
  | .EXCELLENT => "excellent"
  | .GOOD => "good"
  | .MODERATE => "moderate"
  | .POOR => "poor"

/-- `PlatformFit.from_string` (note: this one only uppercases, no underscore
handling), unknown tokens fall back to `MODERATE`. -/
def PlatformFit.from_string (value : String) : PlatformFit :=
  let normalized := pyUpper value
  if normalized = "EXCELLENT" then .EXCELLENT
  else if normalized = "GOOD" then .GOOD
  else if normalized = "MODERATE" then .MODERATE
  else if normalized = "POOR" then .POOR
  else .MODERATE

/-- `TechnicalAnalysis` dataclass with its field defaults. -/
structure TechnicalAnalysis where
  overlap_level : OverlapLevel := .UNCLEAR
  development_stage : DevelopmentStage := .CONCEPT_SUMMARY
  use_case_overlap : List PyVal := []
  similar_stack : List PyVal := []
  adjacent_gaps : List String := []
  clarification_needed : String := ""
  summary : String := ""

/-- `PersonaEvaluation` dataclass with its field defaults. -/
structure PersonaEvaluation where
  persona_id : String := ""
  persona_name : String := ""
  professionally_relevant : Bool := false
  relevance : String := "NONE"
  explanation : String := ""
deriving DecidableEq

/-- `BroadAppealAnalysis` dataclass with its field defaults. -/
structure BroadAppealAnalysis where
  broad_appeal : BroadAppeal := .TECHNICAL_ONLY
  personas_who_understand : List String := []
  personas_who_dont : List String := []
  evaluations : List PersonaEvaluation := []
  summary : String := ""

/-- `PlatformAnalysis` dataclass with its field defaults. -/
structure PlatformAnalysis where
  features_identified : List PyVal := []
  features_new : List String := []
  features_reused : List String := []
  platform_fit : PlatformFit := .MODERATE
  notes : String := ""

/-- `FinalAnalysis` dataclass with its field defaults (the documented
most-conservative defaults for the enum fields). -/
structure FinalAnalysis where
  overlap_level : OverlapLevel := .UNCLEAR
  development_stage : DevelopmentStage := .CONCEPT_SUMMARY
  use_case_overlap : List PyVal := []
  similar_stack : List PyVal := []
  adjacent_gaps : List String := []
  clarification_needed : String := ""
  technical_summary : String := ""
  broad_appeal : BroadAppeal := .TECHNICAL_ONLY
  personas_who_understand : List String := []
  personas_who_dont : List String := []
  persona_evaluations : List PyVal := []
  appeal_summary : String := ""
  features_identified : List PyVal := []
  features_new : List String := []
  features_reused : List String := []
  platform_fit : PlatformFit := .MODERATE
  overall_recommendation : String := ""
  priority_score : Int := 5
  fills_portfolio_gap : List String := []
  raw_analysis : String := ""

/-- GitHub issue dict as consumed by the coordinator and the report
orchestrator: the keys actually read (`number`, `title`, `body`), each
possibly absent (`Option`), mirroring `dict.get`. -/
structure Issue where
  number : Option Nat := none
  title : Option String := none
  body : Option String := none
deriving DecidableEq

/-- `_calculate_priority_score` from src/agents/coordinator.py, translated
branch by branch (base 4, overlap and stage and appeal adjustments, capped
feature and gap bonuses, final clamp to [1, 10]). -/
def _calculate_priority_score (analysis : FinalAnalysis) : Int :=
  let score : Int := 4
  let score := score +
    (if analysis.overlap_level = OverlapLevel.UNIQUE then 1
     else if analysis.overlap_level = OverlapLevel.UNCLEAR then -1
     else 0)
  let score := score +
    (if analysis.development_stage = DevelopmentStage.HAS_CODE then 2
     else if analysis.development_stage = DevelopmentStage.DETAILED_PLAN then 1
     else if analysis.development_stage = DevelopmentStage.DETAILED_CONCEPT then 0
     else -3)
  let score := score +
    (if analysis.broad_appeal = BroadAppeal.UNIVERSAL then 1
     else if analysis.broad_appeal = BroadAppeal.TECHNICAL_ONLY then -1
     else 0)
  let score := score +
    (if analysis.features_new.isEmpty then 0
     else min (analysis.features_new.length : Int) 2)
  let score := score +
    (if analysis.fills_portfolio_gap.isEmpty then 0
     else min (analysis.fills_portfolio_gap.length : Int) 2)
  max 1 (min 10 score)

/-- Overlap delta as the specification words it: UNIQUE +1, UNCLEAR −1,
POSSIBLE_OVERLAP +0. -/
def specOverlapDelta : OverlapLevel → Int
  | .UNIQUE => 1
  | .UNCLEAR => -1
  | .POSSIBLE_OVERLAP => 0

/-- Stage delta as the specification words it: HAS_CODE +2, DETAILED_PLAN +1,
DETAILED_CONCEPT +0, CONCEPT_SUMMARY −3. -/
def specStageDelta : DevelopmentStage → Int
  | .HAS_CODE => 2
  | .DETAILED_PLAN => 1
  | .DETAILED_CONCEPT => 0
  | .CONCEPT_SUMMARY => -3

/-- Appeal delta as the specification words it: UNIVERSAL +1, TECHNICAL_ONLY
−1, BUSINESS_SPECIFIC +0. -/
def specAppealDelta : BroadAppeal → Int
  | .UNIVERSAL => 1
  | .TECHNICAL_ONLY => -1
  | .BUSINESS_SPECIFIC => 0

/-- Priority score as the specification words it: clamp to [1, 10] of 4 plus
the three deltas plus `min(count, 2)` for the new-feature and filled-gap
lists.  Written from the spec, to be compared with the source-translated
`_calculate_priority_score`. -/
def specPriorityScore (a : FinalAnalysis) : Int :=
  max 1 (min 10 (4 + specOverlapDelta a.overlap_level + specStageDelta a.development_stage
    + specAppealDelta a.broad_appeal
    + min (a.features_new.length : Int) 2 + min (a.fills_portfolio_gap.length : Int) 2))

/-- Industry keyword table from `_detect_portfolio_gaps_filled`. -/
def industry_keywords : List (String × List String) :=
  [ ("healthcare", ["healthcare", "medical", "clinical", "patient", "hospital", "diagnostic", "health"]),
    ("financial services", ["financial", "banking", "fraud", "trading", "credit", "loan", "mortgage", "compliance"]),
    ("manufacturing", ["manufacturing", "factory", "quality control", "defect", "production", "assembly", "industrial"]),
    ("retail", ["retail", "inventory", "e-commerce", "shopping", "store", "merchandis"]),
    ("legal", ["legal", "law", "contract", "court", "litigation", "compliance", "regulatory"]) ]

/-- Use-case keyword table from `_detect_portfolio_gaps_filled`. -/
def use_case_keywords : List (String × List String) :=
  [ ("document intelligence", ["document", "invoice", "form", "ocr", "pdf", "extraction", "contract analysis"]),
    ("computer vision", ["computer vision", "image", "video", "visual", "camera", "object detection", "cv"]),
    ("fraud detection", ["fraud", "anomaly detection", "suspicious", "risk scoring"]),
    ("predictive maintenance", ["predictive maintenance", "equipment failure", "sensor", "iot", "time series"]),
    ("customer service", ["customer service", "call center", "chatbot", "support ticket", "helpdesk"]) ]

/-- Capability keyword table from `_detect_portfolio_gaps_filled`. -/
def capability_keywords : List (String × List String) :=
  [ ("computer vision", ["computer vision", "image classification", "object detection", "visual"]),
    ("fine-tuning", ["fine-tuning", "fine tuning", "model customization", "domain adaptation"]),
    ("speech", ["speech", "audio", "voice", "transcription", "stt", "tts"]),
    ("batch processing", ["batch", "bulk", "large-scale", "offline processing"]) ]

/-- Inner dict loop of each gap category in `_detect_portfolio_gaps_filled`:
the first table entry whose name occurs in the lowercased gap entry and one of
whose keywords occurs in the search text wins (`break`); entries whose name
matches but whose keywords do not are skipped and the loop continues. -/
def matchGapCategory (table : List (String × List String))
    (entryLower : String) (searchText : String) : Option String :=
  (table.find? (fun p => pyIn p.1 entryLower && p.2.any (fun kw => pyIn kw searchText))).map
    (fun p => p.1)

/-- One gap-category pass: for each configured gap entry append
`label ++ title(name)` for the matching table entry, if any. -/
def gapCategoryHits (label : String) (table : List (String × List String))
    (entries : List String) (searchText : String) : List String :=
  entries.filterMap (fun e =>
    (matchGapCategory table (pyLower e) searchText).map (fun name => label ++ pyTitle name))

/-- Python dict `.get key default` over a string-keyed association list of
string lists (the `portfolio_gaps` dict). -/
def gapsGet (gaps : List (String × List String)) (key : String) : List String :=
  match gaps.find? (fun p => p.1 == key) with
  | some p => p.2
  | none => []

/-- `_detect_portfolio_gaps_filled` from src/agents/coordinator.py: keyword
matching of the three gap categories against the lowercased issue title, body
and technical summary, deduplicated preserving first occurrence. -/
def _detect_portfolio_gaps_filled (issue : Issue) (analysis : FinalAnalysis)
    (portfolioGaps : List (String × List String)) : List String :=
  if portfolioGaps.isEmpty then []
  else
    let title := pyLower (issue.title.getD "")
    let body := pyLower (issue.body.getD "")
    let summary := pyLower analysis.technical_summary
    let searchText := title ++ " " ++ body ++ " " ++ summary
    let hits :=
      gapCategoryHits "Industry: " industry_keywords (gapsGet portfolioGaps "industries") searchText
      ++ gapCategoryHits "Use Case: " use_case_keywords (gapsGet portfolioGaps "use_cases") searchText
      ++ gapCategoryHits "Capability: " capability_keywords (gapsGet portfolioGaps "capabilities") searchText
    pyDedup hits

/-- `_generate_recommendation` from src/agents/coordinator.py: deterministic
template concatenation driven by the classification fields. -/
def _generate_recommendation (analysis : FinalAnalysis) : String :=
  let parts : List String := []
  let parts := parts ++
    [ if analysis.overlap_level = OverlapLevel.UNIQUE then
        "Unique use case - no overlap with existing quickstarts."
      else if analysis.overlap_level = OverlapLevel.POSSIBLE_OVERLAP then
        "Possible overlap with " ++ toString analysis.use_case_overlap.length
          ++ " existing quickstart(s) - review recommended."
      else
        "Use case needs clarification before overlap can be assessed." ]
  let parts := parts ++
    [ if analysis.development_stage = DevelopmentStage.HAS_CODE then
        "Contributor has existing code/prototype."
      else if analysis.development_stage = DevelopmentStage.DETAILED_PLAN then
        "Detailed implementation plan ready for development."
      else if analysis.development_stage = DevelopmentStage.DETAILED_CONCEPT then
        "Well-described concept - needs some planning before implementation."
      else
        "Brief concept summary - needs follow-up for details." ]
  let parts :=
    if analysis.appeal_summary = "" then parts
    else parts ++ [ "Appeal: " ++ pyTitle (pyReplaceUnderscoreSpace analysis.broad_appeal.value) ++ "." ]
  let parts :=
    if analysis.features_new.isEmpty then parts
    else parts ++
      [ "Would demonstrate " ++ toString analysis.features_new.length ++ " new platform feature(s)." ]
  let parts :=
    if analysis.fills_portfolio_gap.isEmpty then parts
    else parts ++
      [ "Fills catalog gap: " ++ String.intercalate ", " (analysis.fills_portfolio_gap.take 2) ++ "." ]
  String.intercalate " " parts

/-- Merge step of `coordinator_node` from src/agents/coordinator.py: start from
the defaulted `FinalAnalysis`, copy in each available specialist result, detect
filled portfolio gaps, then derive the recommendation text and the priority
score.  The raw-analysis audit blob and the fail-open guardrail warning (which
only prepend text to `raw_analysis`) are outside the merged fields the claims
mention and are left at their defaults here. -/
def coordinator_merge (issue : Issue) (technical : Option TechnicalAnalysis)
    (broadAppealResult : Option BroadAppealAnalysis) (platform : Option PlatformAnalysis)
    (portfolioGaps : List (String × List String)) : FinalAnalysis :=
  let final : FinalAnalysis := {}
  let final :=
    match technical with
    | some t =>
        { final with
          overlap_level := t.overlap_level
          development_stage := t.development_stage
          use_case_overlap := t.use_case_overlap
          similar_stack := t.similar_stack
          adjacent_gaps := t.adjacent_gaps
          clarification_needed := t.clarification_needed
          technical_summary := t.summary }
    | none => final
  let final :=
    match broadAppealResult with
    | some b =>
        { final with
          broad_appeal := b.broad_appeal
          personas_who_understand := b.personas_who_understand
          personas_who_dont := b.personas_who_dont
          persona_evaluations := b.evaluations.map (fun (e : PersonaEvaluation) =>
            PyVal.dict [("name", .str e.persona_name), ("relevance", .str e.relevance),
              ("explanation", .str e.explanation)])
          appeal_summary := b.summary }
    | none => final
  let final :=
    match platform with
    | some p =>
        { final with
          features_identified := p.features_identified
          features_new := p.features_new
          features_reused := p.features_reused
          platform_fit := p.platform_fit }
    | none => final
  let final := { final with
    fills_portfolio_gap := _detect_portfolio_gaps_filled issue final portfolioGaps }
  let final := { final with overall_recommendation := _generate_recommendation final }
  { final with priority_score := _calculate_priority_score final }

/-- `determine_broad_appeal` from src/agents/personas.py: count HIGH and
MEDIUM relevances and classify by the documented thresholds. -/
def determine_broad_appeal (evaluations : List PersonaEvaluation) : BroadAppeal :=
  if evaluations.isEmpty then BroadAppeal.TECHNICAL_ONLY
  else
    let high_relevance := (evaluations.filter (fun e => e.relevance == "HIGH")).length
    let medium_relevance := (evaluations.filter (fun e => e.relevance == "MEDIUM")).length
    let relevant_count := high_relevance + medium_relevance
    if 4 ≤ relevant_count || 3 ≤ high_relevance then BroadAppeal.UNIVERSAL
    else if 2 ≤ relevant_count then BroadAppeal.BUSINESS_SPECIFIC
    else BroadAppeal.TECHNICAL_ONLY

/-- HIGH-or-MEDIUM relevance count, as the spec words it. -/
def relevantCount (evaluations : List PersonaEvaluation) : Nat :=
  (evaluations.filter (fun e => e.relevance == "HIGH" || e.relevance == "MEDIUM")).length

/-- HIGH relevance count, as the spec words it. -/
def highCount (evaluations : List PersonaEvaluation) : Nat :=
  (evaluations.filter (fun e => e.relevance == "HIGH")).length

/-- Typed projection of the parsed technical-analysis response dict, one
field per key read by `_build_analysis`; `none` models an absent key, so
`Option.getD` is Python `dict.get(key, default)`. -/
structure TechResponse where
  summary : Option String := none
  overlap_level : Option String := none
  development_stage : Option String := none
  use_case_overlap : Option (List PyVal) := none
  clarification_needed : Option String := none
  similar_stack : Option (List PyVal) := none
  adjacent_gaps : Option (List String) := none

/-- `_needs_clarification` from src/agents/technical.py: clarification is not
needed only when the overlap is clear (UNIQUE or POSSIBLE_OVERLAP) and the
stage is mature (HAS_CODE or DETAILED_PLAN). -/
def _needs_clarification (overlap_level : OverlapLevel) (dev_stage : DevelopmentStage) : Bool :=
  let overlap_clear := overlap_level == OverlapLevel.UNIQUE
    || overlap_level == OverlapLevel.POSSIBLE_OVERLAP
  let stage_mature := dev_stage == DevelopmentStage.HAS_CODE
    || dev_stage == DevelopmentStage.DETAILED_PLAN
  !(overlap_clear && stage_mature)

/-- `_generate_default_clarification` from src/agents/technical.py: the
"Use Case Details" block when the overlap is UNCLEAR, the "Technical Details"
block when the stage is CONCEPT_SUMMARY or DETAILED_CONCEPT, joined by a
newline. -/
def _generate_default_clarification (overlap_level : OverlapLevel)
    (dev_stage : DevelopmentStage) : String :=
  let parts : List String := []
  let parts :=
    if overlap_level = OverlapLevel.UNCLEAR then
      parts ++ ["\nUse Case Details (to assess overlap):\n- The specific problem or workflow being addressed, to help distinguish from existing quickstarts\n- The intended target audience and their pain points\n- Context on how the use case relates to what is already in the catalog"]
    else parts
  let parts :=
    if dev_stage = DevelopmentStage.CONCEPT_SUMMARY ∨ dev_stage = DevelopmentStage.DETAILED_CONCEPT then
      parts ++ ["\nTechnical Details (to elevate to DETAILED_PLAN):\n- Specific technology choices and frameworks under consideration\n- The proposed architecture and component interactions\n- The intended implementation approach and phasing"]
    else parts
  String.intercalate "\n" parts

/-- `_build_analysis` from src/agents/technical.py: normalize the parsed
response into a `TechnicalAnalysis` — prepend the fallback note to the
summary, parse the enums with their conservative defaults, downgrade UNIQUE to
POSSIBLE_OVERLAP when use-case overlaps are listed, and synthesize the default
clarification when one is required but the model supplied none (or only
whitespace). -/
def _build_analysis (response : TechResponse) (fallback_note : String) : TechnicalAnalysis :=
  let summary := response.summary.getD ""
  let summary := if fallback_note ≠ "" then "(" ++ fallback_note ++ ") " ++ summary else summary
  let overlap_level := OverlapLevel.from_string (response.overlap_level.getD "UNCLEAR")
  let dev_stage := DevelopmentStage.from_string (response.development_stage.getD "CONCEPT_SUMMARY")
  let use_case_overlap := response.use_case_overlap.getD []
  let clarification := response.clarification_needed.getD ""
  let overlap_level :=
    if !use_case_overlap.isEmpty && overlap_level == OverlapLevel.UNIQUE then
      OverlapLevel.POSSIBLE_OVERLAP
    else overlap_level
  let clarification :=
    if _needs_clarification overlap_level dev_stage && pyStrip clarification == "" then
      _generate_default_clarification overlap_level dev_stage
    else clarification
  { overlap_level := overlap_level
    development_stage := dev_stage
    use_case_overlap := use_case_overlap
    similar_stack := response.similar_stack.getD []
    adjacent_gaps := response.adjacent_gaps.getD []
    clarification_needed := clarification
    summary := summary }

/-- Python dict lookup over a string-keyed association list (first matching
key wins, as dict literals in the source never repeat keys). -/
def pyDictFind (d : List (String × PyVal)) (k : String) : Option PyVal :=
  (d.find? (fun p => p.1 == k)).map (fun p => p.2)

/-- Read a string-typed field: absent keys give the default, a present
non-string value is a dynamic-type error (`none`), since the source would
then crash on `.upper()`/concatenation. -/
def getStrD (d : List (String × PyVal)) (k : String) (dflt : String) : Option String :=
  match pyDictFind d k with
  | Option.none => some dflt
  | some (.str s) => some s
  | some _ => none

/-- Read a list-typed field holding arbitrary values. -/
def getPyListD (d : List (String × PyVal)) (k : String) (dflt : List PyVal) :
    Option (List PyVal) :=
  match pyDictFind d k with
  | Option.none => some dflt
  | some (.list xs) => some xs
  | some _ => none

/-- Project a dynamic list to strings, failing on any non-string element. -/
def strListProj : List PyVal → Option (List String)
  | [] => some []
  | PyVal.str s :: rest => (strListProj rest).map (fun l => s :: l)
  | _ => Option.none

/-- Read a list-of-strings field. -/
def getStrListD (d : List (String × PyVal)) (k : String) (dflt : List String) :
    Option (List String) :=
  match pyDictFind d k with
  | Option.none => some dflt
  | some (.list xs) => strListProj xs
  | some _ => none

/-- Read an int-typed field. -/
def getIntD (d : List (String × PyVal)) (k : String) (dflt : Int) : Option Int :=
  match pyDictFind d k with
  | Option.none => some dflt
  | some (.int n) => some n
  | some _ => none

/-- `final_analysis_to_dict` from src/agents/state.py: the persisted wire
mapping — enum fields serialize to their uppercase token (underscores become
spaces, except `platform_fit` which is only uppercased), everything else
passes through. -/
def final_analysis_to_dict (a : FinalAnalysis) : List (String × PyVal) :=
  [ ("overlap_level", .str (pyReplaceUnderscoreSpace (pyUpper a.overlap_level.value))),
    ("development_stage", .str (pyReplaceUnderscoreSpace (pyUpper a.development_stage.value))),
    ("use_case_overlap", .list a.use_case_overlap),
    ("similar_stack", .list a.similar_stack),
    ("adjacent_gaps", .list (a.adjacent_gaps.map PyVal.str)),
    ("clarification_needed", .str a.clarification_needed),
    ("summary", .str a.technical_summary),
    ("broad_appeal", .str (pyReplaceUnderscoreSpace (pyUpper a.broad_appeal.value))),
    ("personas_who_understand", .list (a.personas_who_understand.map PyVal.str)),
    ("personas_who_dont", .list (a.personas_who_dont.map PyVal.str)),
    ("persona_evaluations", .list a.persona_evaluations),
    ("appeal_summary", .str a.appeal_summary),
    ("features_identified", .list a.features_identified),
    ("features_new", .list (a.features_new.map PyVal.str)),
    ("features_reused", .list (a.features_reused.map PyVal.str)),
    ("platform_fit", .str (pyUpper a.platform_fit.value)),
    ("overall_recommendation", .str a.overall_recommendation),
    ("priority_score", .int a.priority_score),
    ("fills_portfolio_gap", .list (a.fills_portfolio_gap.map PyVal.str)),
    ("raw_analysis", .str a.raw_analysis) ]

/-- Monadic bind on `Option`, re-stated without the inlining attribute (the
inlined library bind makes the code generator blow up on long chains). -/
def optBind {α β : Type} (x : Option α) (f : α → Option β) : Option β :=
  match x with
  | some v => f v
  | Option.none => Option.none

/-- `dict_to_final_analysis` from src/agents/state.py: rebuild a
`FinalAnalysis` from the wire mapping, with the documented per-key defaults
and the `from_string` enum parsers; a dynamically ill-typed field is the
error channel `none`. -/
def dict_to_final_analysis (data : List (String × PyVal)) : Option FinalAnalysis :=
  optBind (getStrD data "overlap_level" "UNCLEAR") fun ol =>
  optBind (getStrD data "development_stage" "CONCEPT_SUMMARY") fun ds =>
  optBind (getPyListD data "use_case_overlap" []) fun uco =>
  optBind (getPyListD data "similar_stack" []) fun ss =>
  optBind (getStrListD data "adjacent_gaps" []) fun ag =>
  optBind (getStrD data "clarification_needed" "") fun cn =>
  optBind (getStrD data "summary" "") fun summ =>
  optBind (getStrD data "broad_appeal" "TECHNICAL_ONLY") fun ba =>
  optBind (getStrListD data "personas_who_understand" []) fun pwu =>
  optBind (getStrListD data "personas_who_dont" []) fun pwd =>
  optBind (getPyListD data "persona_evaluations" []) fun pe =>
  optBind (getStrD data "appeal_summary" "") fun asumm =>
  optBind (getPyListD data "features_identified" []) fun fi =>
  optBind (getStrListD data "features_new" []) fun fn =>
  optBind (getStrListD data "features_reused" []) fun fr =>
  optBind (getStrD data "platform_fit" "MODERATE") fun pf =>
  optBind (getStrD data "overall_recommendation" "") fun orec =>
  optBind (getIntD data "priority_score" 5) fun ps =>
  optBind (getStrListD data "fills_portfolio_gap" []) fun fpg =>
  optBind (getStrD data "raw_analysis" "") fun raw =>
  some
    { overlap_level := OverlapLevel.from_string ol
      development_stage := DevelopmentStage.from_string ds
      use_case_overlap := uco
      similar_stack := ss
      adjacent_gaps := ag
      clarification_needed := cn
      technical_summary := summ
      broad_appeal := BroadAppeal.from_string ba
      personas_who_understand := pwu
      personas_who_dont := pwd
      persona_evaluations := pe
      appeal_summary := asumm
      features_identified := fi
      features_new := fn
      features_reused := fr
      platform_fit := PlatformFit.from_string pf
      overall_recommendation := orec
      priority_score := ps
      fills_portfolio_gap := fpg
      raw_analysis := raw }

/-- Tool-call request parsed from a model response (`ToolCall` dataclass in
src/llm/tools.py); the arguments dict is already parsed. -/
structure ToolCall where
  id : String
  name : String
  arguments : List (String × PyVal)

/-- `ToolResult` dataclass from src/llm/tools.py. -/
structure ToolResult where
  tool_call_id : String
  result : String

/-- A callable tool (`Tool` dataclass): the embedded function returns the
result string or, on the `Except.error` channel, the exception text the
Python function would raise. -/
structure PyTool where
  name : String
  description : String
  run : List (String × PyVal) → Except String String

/-- One transcript entry: a plain role/content message, an assistant message
carrying tool calls, or a tool-result message. -/
inductive ChatMsg where
  | plain (role : String) (content : String)
  | assistant (content : Option String) (tool_calls : List ToolCall)
  | tool (tool_call_id : String) (content : String)

/-- Reply of one chat-completion call: optional text content plus the
requested tool calls (empty when the model answered in plain text). -/
structure ModelReply where
  content : Option String
  tool_calls : List ToolCall

/-- `execute_tool` from src/llm/tools.py: dispatch by name against the fixed
toolset; an unknown name or a raising tool function becomes a structured
error payload for that call only. -/
def execute_tool (tc : ToolCall) (available_tools : List PyTool) : ToolResult :=
  match available_tools.find? (fun t => t.name == tc.name) with
  | Option.none =>
      { tool_call_id := tc.id, result := "\x7b\"error\": \"Unknown tool: " ++ tc.name ++ "\"\x7d" }
  | some t =>
      match t.run tc.arguments with
      | .ok r => { tool_call_id := tc.id, result := r }
      | .error e => { tool_call_id := tc.id, result := "\x7b\"error\": \"" ++ e ++ "\"\x7d" }

/-- `execute_tools`: execute the turn's calls in order. -/
def execute_tools (tool_calls : List ToolCall) (available_tools : List PyTool) : List ToolResult :=
  tool_calls.map (fun tc => execute_tool tc available_tools)

/-- `tool_results_to_messages`: order-preserving conversion of tool results
into transcript messages. -/
def tool_results_to_messages (results : List ToolResult) : List ChatMsg :=
  results.map (fun r => ChatMsg.tool r.tool_call_id r.result)

/-- `chat_with_tools` from src/llm/tools.py.  The stateful OpenAI client is an
oracle `client callIdx toolsEnabled transcript`; the call counter is the
client's explicit state, threaded as the second `Nat` argument and returned as
the third component so the number of model calls is observable.  The first
`Nat` argument is the remaining iteration budget of
`for iteration in range(max_iterations)`.  Each loop turn calls the model with
tools enabled: no requested tool calls means return the content (empty string
when `None`) and the transcript so far; otherwise the assistant turn and all
tool results are appended and the loop continues.  On budget exhaustion one
final call is made with tools disabled and its content returned. -/
def chat_with_tools (client : Nat → Bool → List ChatMsg → ModelReply) (tools : List PyTool) :
    Nat → Nat → List ChatMsg → String × List ChatMsg × Nat
  | 0, calls, messages =>
      let reply := client calls false messages
      (reply.content.getD "", messages, calls + 1)
  | fuel + 1, calls, messages =>
      let reply := client calls true messages
      match reply.tool_calls with
      | [] => (reply.content.getD "", messages, calls + 1)
      | _ :: _ =>
          let messages2 := messages
            ++ [ChatMsg.assistant reply.content reply.tool_calls]
            ++ tool_results_to_messages (execute_tools reply.tool_calls tools)
          chat_with_tools client tools fuel (calls + 1) messages2

/-- Key of one issue in the order map: `issue.get("number", i)` where `i` is
the enumeration index (the dict-comprehension default). -/
def issueKey (issue : Issue) (i : Nat) : Nat := issue.number.getD i

/-- Lookup in the dict comprehension
`{issue.get("number", i): i for i, issue in enumerate(issues)}`: a later
entry with the same key overwrites an earlier one, so the accumulator keeps
the last match; `i` is the running enumeration index. -/
def issueOrderAux (issues : List Issue) (i : Nat) (key : Nat) (acc : Option Nat) : Option Nat :=
  match issues with
  | [] => acc
  | is :: rest =>
      issueOrderAux rest (i + 1) key (if issueKey is i = key then some i else acc)

/-- `issue_order[key]` for the order map built from `issues`; `none` is a
Python `KeyError`. -/
def issueOrderLookup (issues : List Issue) (key : Nat) : Option Nat :=
  issueOrderAux issues 0 key Option.none

/-- Result-gathering loop of `generate_report_analysis`
(src/agents/report_graph.py): iterate the completed futures in completion
order (`as_completed`), look the submitting issue up in the order map with
key `issue.get("number", 0)` (`KeyError` aborts the batch), and place the
result at the mapped index of the preallocated `[None] * len(issues)` list. -/
def gatherLoop {α : Type} (issues : List Issue) (analyze : Issue → α) :
    List Issue → List (Option α) → Except String (List (Option α))
  | [], results => Except.ok results
  | is :: rest, results =>
      match issueOrderLookup issues (is.number.getD 0) with
      | some idx => gatherLoop issues analyze rest (results.set idx (some (analyze is)))
      | Option.none => Except.error "KeyError"

/-- Phase-2 order restoration of `generate_report_analysis`: the per-issue
work (`_analyze_single_issue`, which never raises) is the oracle `analyze`;
the worker pool's nondeterministic completion order is the explicit
`completed` list — any permutation of `issues`. -/
def generate_report_analysis {α : Type} (issues : List Issue) (analyze : Issue → α)
    (completed : List Issue) : Except String (List (Option α)) :=
  gatherLoop issues analyze completed (List.replicate issues.length Option.none)

/-- JSON whitespace accepted between tokens by `json.loads`. -/
def jsonWs (c : Char) : Bool := c == ' ' || c == '\t' || c == '\n' || c == '\r'

/-- JSON string body parser (after the opening quote): returns the decoded
characters and the remainder after the closing quote.  Handles the
single-character escapes; `\u` escapes are rejected (treated as a decode
failure, see the module comment). -/
def parseJsonString : Nat → List Char → Option (List Char × List Char)
  | 0, _ => Option.none
  | _, [] => Option.none
  | fuel + 1, c :: rest =>
      if c == '"' then some ([], rest)
      else if c == '\\' then
        match rest with
        | [] => Option.none
        | e :: rest2 =>
            let dec : Option Char :=
              if e == '"' then some '"'
              else if e == '\\' then some '\\'
              else if e == '/' then some '/'
              else if e == 'n' then some '\n'
              else if e == 't' then some '\t'
              else if e == 'r' then some '\r'
              else if e == 'b' then some '\x08'
              else if e == 'f' then some '\x0c'
              else Option.none
            match dec with
            | Option.none => Option.none
            | some d => (parseJsonString fuel rest2).map (fun p => (d :: p.1, p.2))
      else (parseJsonString fuel rest).map (fun p => (c :: p.1, p.2))

/-- Digit-string to number. -/
def digitsToNat (ds : List Char) : Nat :=
  ds.foldl (fun acc c => acc * 10 + (c.toNat - 48)) 0

/-- JSON number parser, integer fragment only: an optional minus sign and
digits; a following `.`/`e`/`E` (a float) is rejected. -/
def parseJsonNumber (s : List Char) : Option (PyVal × List Char) :=
  let negAndBody : Bool × List Char :=
    match s with
    | '-' :: r => (true, r)
    | _ => (false, s)
  let digits := negAndBody.2.takeWhile Char.isDigit
  let rest := negAndBody.2.dropWhile Char.isDigit
  if digits.isEmpty then Option.none
  else
    match rest with
    | c :: _ =>
        if c == '.' || c == 'e' || c == 'E' then Option.none
        else some (PyVal.int (if negAndBody.1 then -(digitsToNat digits : Int) else (digitsToNat digits : Int)), rest)
    | [] => some (PyVal.int (if negAndBody.1 then -(digitsToNat digits : Int) else (digitsToNat digits : Int)), rest)

mutual

/-- JSON value parser: leading whitespace, then an object, array, string,
literal or integer; returns the value and the unconsumed remainder. -/
def parseJsonValue : Nat → List Char → Option (PyVal × List Char)
  | 0, _ => Option.none
  | fuel + 1, s =>
      match s.dropWhile jsonWs with
      | [] => Option.none
      | c :: rest =>
          if c == '\x7b' then
            match rest.dropWhile jsonWs with
            | '\x7d' :: r2 => some (PyVal.dict [], r2)
            | r2 => (parseJsonMembers fuel r2).map (fun p => (PyVal.dict p.1, p.2))
          else if c == '[' then
            match rest.dropWhile jsonWs with
            | ']' :: r2 => some (PyVal.list [], r2)
            | r2 => (parseJsonItems fuel r2).map (fun p => (PyVal.list p.1, p.2))
          else if c == '"' then
            (parseJsonString fuel rest).map (fun p => (PyVal.str ⟨p.1⟩, p.2))
          else if c == 't' then
            if "rue".data.isPrefixOf rest then some (PyVal.bool true, rest.drop 3) else Option.none
          else if c == 'f' then
            if "alse".data.isPrefixOf rest then some (PyVal.bool false, rest.drop 4) else Option.none
          else if c == 'n' then
            if "ull".data.isPrefixOf rest then some (PyVal.pynone, rest.drop 3) else Option.none
          else parseJsonNumber (c :: rest)

/-- Object members parser (positioned at a key, leading whitespace already
consumed): `"key" : value` entries separated by commas until the closing
brace. -/
def parseJsonMembers : Nat → List Char → Option (List (String × PyVal) × List Char)
  | 0, _ => Option.none
  | fuel + 1, s =>
      match s with
      | '"' :: rest =>
          match parseJsonString fuel rest with
          | Option.none => Option.none
          | some (key, r1) =>
              match r1.dropWhile jsonWs with
              | ':' :: r2 =>
                  match parseJsonValue fuel r2 with
                  | Option.none => Option.none
                  | some (v, r3) =>
                      match r3.dropWhile jsonWs with
                      | ',' :: r4 =>
                          (parseJsonMembers fuel (r4.dropWhile jsonWs)).map
                            (fun p => ((⟨key⟩, v) :: p.1, p.2))
                      | '\x7d' :: r4 => some ([(⟨key⟩, v)], r4)
                      | _ => Option.none
              | _ => Option.none
      | _ => Option.none

/-- Array items parser: values separated by commas until the closing
bracket. -/
def parseJsonItems : Nat → List Char → Option (List PyVal × List Char)
  | 0, _ => Option.none
  | fuel + 1, s =>
      match parseJsonValue fuel s with
      | Option.none => Option.none
      | some (v, r1) =>
          match r1.dropWhile jsonWs with
          | ',' :: r2 => (parseJsonItems fuel r2).map (fun p => (v :: p.1, p.2))
          | ']' :: r2 => some ([v], r2)
          | _ => Option.none

end

/-- `json.loads`: parse one JSON value and require only whitespace after it.
The fuel `length + 2` dominates the recursion depth, since every recursive
step first consumes at least one character. -/
def jsonLoads (s : List Char) : Option PyVal :=
  match parseJsonValue (s.length + 2) s with
  | some (v, rest) => if (rest.dropWhile jsonWs).isEmpty then some v else Option.none
  | Option.none => Option.none

/-- The three-backtick fence delimiter. -/
def fenceChars : List Char := "```".data

/-- Characters matched by the regex class `\s`. -/
def pyIsRegexSpace (c : Char) : Bool :=
  c == ' ' || c == '\t' || c == '\n' || c == '\r' || c == '\x0b' || c == '\x0c'

/-- Lazy search for the group-closing character: the group body ends at the
first `closec` that is followed by optional whitespace and a closing fence
(the lazy `.*?` of the regex tries shorter bodies first, and the greedy `\s*`
before the literal fence is deterministic because a backtick is not
whitespace).  Returns the body characters before that `closec`. -/
def findLazyClose (closec : Char) : List Char → Option (List Char)
  | [] => Option.none
  | c :: rest =>
      if c == closec && fenceChars.isPrefixOf (rest.dropWhile pyIsRegexSpace) then some []
      else (findLazyClose closec rest).map (fun tail => c :: tail)

/-- Attempt of the fenced-block regex at one start position: a fence, an
optional literal `json` tag, whitespace, the opening character, then the lazy
body to the matched closing character.  The `(?:json)?\s*` prefix of the
regex is deterministic here: if `json` follows the fence but that branch
fails, the branch without it needs the opening character where `j` stands, so
it fails too. -/
def matchFencedAt (openc closec : Char) (s : List Char) : Option (List Char) :=
  if fenceChars.isPrefixOf s then
    let afterFence := s.drop 3
    let afterTag :=
      if "json".data.isPrefixOf afterFence then afterFence.drop 4 else afterFence
    match afterTag.dropWhile pyIsRegexSpace with
    | c :: body =>
        if c == openc then
          (findLazyClose closec body).map (fun mid => openc :: mid ++ [closec])
        else Option.none
    | [] => Option.none
  else Option.none

/-- `re.search` for the fenced-block pattern: try every start position left to
right and return the first position's group. -/
def searchFenced (openc closec : Char) : List Char → Option (List Char)
  | [] => Option.none
  | c :: rest =>
      match matchFencedAt openc closec (c :: rest) with
      | some g => some g
      | Option.none => searchFenced openc closec rest

/-- Index of the first occurrence of `c` (Python `str.find`, `none` for -1). -/
def pyFindIdx (c : Char) (s : List Char) : Option Nat :=
  s.findIdx? (fun x => x == c)

/-- Index of the last occurrence of `c` (Python `str.rfind`, `none` for -1). -/
def pyRfindIdx (c : Char) (s : List Char) : Option Nat :=
  match s.reverse.findIdx? (fun x => x == c) with
  | some j => some (s.length - 1 - j)
  | Option.none => Option.none

/-- Strategies 3 and 4 of `extract_json_block`: the substring from the first
opening to the last closing character, provided the latter comes strictly
later. -/
def outerSpan (openc closec : Char) (content : List Char) : Option (List Char) :=
  match pyFindIdx openc content, pyRfindIdx closec content with
  | some sb, some eb =>
      if sb < eb then some ((content.drop sb).take (eb + 1 - sb)) else Option.none
  | _, _ => Option.none

/-- `extract_json_block` from src/llm/parsing.py: empty content yields
nothing; otherwise the first matching strategy in order — fenced object,
fenced array, outermost braces span, outermost brackets span — provides the
candidate string (without any parse check). -/
def extract_json_block (content : List Char) : Option (List Char) :=
  if content.isEmpty then Option.none
  else
    match searchFenced '\x7b' '\x7d' content with
    | some g => some g
    | Option.none =>
        match searchFenced '[' ']' content with
        | some g => some g
        | Option.none =>
            match outerSpan '\x7b' '\x7d' content with
            | some g => some g
            | Option.none => outerSpan '[' ']' content

/-- Whole-text fallback of `parse_json_response`: parse the stripped content
and keep it only when it is a mapping, otherwise return the default. -/
def parseWholeFallback (content : List Char) (default : PyVal) : PyVal :=
  match jsonLoads (pyStripChars content) with
  | some (PyVal.dict d) => PyVal.dict d
  | _ => default

/-- Candidate branch of `parse_json_response`: a non-empty extracted candidate
is parsed and returned when it is a mapping; a parse failure or a non-mapping
falls through (`except JSONDecodeError: pass`) to the whole-text fallback, as
does the empty (falsy) candidate. -/
def parseCandidate (content js : List Char) (default : PyVal) : PyVal :=
  if js.isEmpty then parseWholeFallback content default
  else
    match jsonLoads js with
    | some (PyVal.dict d) => PyVal.dict d
    | _ => parseWholeFallback content default

/-- `parse_json_response` from src/llm/parsing.py: extract one candidate with
`extract_json_block` and take the candidate branch on it (`if json_str:`),
otherwise try the whole stripped text, otherwise return the caller-supplied
default. -/
def parse_json_response (content : List Char) (default : PyVal) : PyVal :=
  match extract_json_block content with
  | some js => parseCandidate content js default
  | Option.none => parseWholeFallback content default

/-- Model response for the C5 counterexample: clear overlap, mature stage,
and a model-supplied clarification request. -/
def c5resp : TechResponse :=
  { overlap_level := some "UNIQUE"
    development_stage := some "HAS_CODE"
    clarification_needed := some "Could you describe the target deployment environment in more detail?" }

/-- Client for the C6 witness: always requests one more tool call while tools
are enabled, answers in plain text once they are disabled. -/
def c6client : Nat → Bool → List ChatMsg → ModelReply := fun _ enabled _ =>
  if enabled then
    { content := some "searching", tool_calls := [{ id := "call-1", name := "lookup", arguments := [] }] }
  else { content := some "final answer", tool_calls := [] }

/-- Issues for the C7 witness: the spec scenario numbers [7, 3, 9]. -/
def c7issues : List Issue :=
  [{ number := some 7 }, { number := some 3 }, { number := some 9 }]

/-- Issues with a duplicated number for the C7 counterexample. -/
def c7dupA : Issue := { number := some 5, title := some "first" }

/-- Second issue sharing number 5. -/
def c7dupB : Issue := { number := some 5, title := some "second" }

/-- Issue numbered 7 for the C10 theorem. -/
def c10a : Issue := { number := some 7, title := some "dup-early" }

/-- Second issue also numbered 7. -/
def c10b : Issue := { number := some 7, title := some "dup-late" }

/-- Issue numbered 7 for the KeyError half of C10. -/
def c10c : Issue := { number := some 7, title := some "has-number" }

/-- Issue without a number key. -/
def c10d : Issue := { title := some "no-number" }

/-- Whether an optional parse result is a mapping. -/
def pyOptIsDict : Option PyVal → Bool
  | some v => v.isDict
  | Option.none => false

/-- Content for the C4 counterexample: a fenced JSON array followed by a bare
JSON object later in the same text. -/
def c4content : List Char :=
  "```json\n[1, 2]\n```\nThe details: \x7b\"a\": 1\x7d".data

/-- Content for the C4 amended-claim witness: fenced array then bare object. -/
def c4bcontent : List Char := "```json\n[3]\n```\n\x7b\"b\": 2\x7d".data

/-- Model response for the C5 amended-claim witness: unclear overlap, no
model-supplied clarification. -/
def c5wresp : TechResponse := { overlap_level := some "UNCLEAR" }

/-- Conditional feature/gap bonus equals the unconditional capped bonus (an
empty list contributes 0 either way). -/
theorem if_empty_capped_bonus (l : List String) :
    (if l.isEmpty then (0 : Int) else min (l.length : Int) 2) = min (l.length : Int) 2 := by
  cases l <;> simp

/-- The translated overlap branch equals the spec delta. -/
theorem overlap_delta_eq (ol : OverlapLevel) :
    (if ol = OverlapLevel.UNIQUE then (1 : Int)
     else if ol = OverlapLevel.UNCLEAR then -1 else 0) = specOverlapDelta ol := by
  cases ol <;> simp [specOverlapDelta]

/-- The translated stage branch equals the spec delta. -/
theorem stage_delta_eq (ds : DevelopmentStage) :
    (if ds = DevelopmentStage.HAS_CODE then (2 : Int)
     else if ds = DevelopmentStage.DETAILED_PLAN then 1
     else if ds = DevelopmentStage.DETAILED_CONCEPT then 0
     else -3) = specStageDelta ds := by
  cases ds <;> simp [specStageDelta]

/-- The translated appeal branch equals the spec delta. -/
theorem appeal_delta_eq (ba : BroadAppeal) :
    (if ba = BroadAppeal.UNIVERSAL then (1 : Int)
     else if ba = BroadAppeal.TECHNICAL_ONLY then -1 else 0) = specAppealDelta ba := by
  cases ba <;> simp [specAppealDelta]

/-- Claim C1: for every `FinalAnalysis`, the coordinator priority score equals
the clamp to [1, 10] of 4 plus the overlap delta (UNIQUE +1, UNCLEAR −1), the
stage delta (HAS_CODE +2, DETAILED_PLAN +1, CONCEPT_SUMMARY −3), the appeal
delta (UNIVERSAL +1, TECHNICAL_ONLY −1), `min(new features, 2)` and
`min(filled gaps, 2)`; it always lies in [1, 10]; and the otherwise-neutral
UNIQUE/HAS_CODE/TECHNICAL_ONLY analysis scores 6. -/
theorem priority_score_matches_spec :
    (∀ a : FinalAnalysis, _calculate_priority_score a = specPriorityScore a
      ∧ 1 ≤ _calculate_priority_score a ∧ _calculate_priority_score a ≤ 10)
    ∧ _calculate_priority_score
        { overlap_level := OverlapLevel.UNIQUE, development_stage := DevelopmentStage.HAS_CODE,
          broad_appeal := BroadAppeal.TECHNICAL_ONLY } = 6 := by
  constructor
  · intro a
    refine ⟨?_, ?_, ?_⟩
    · simp only [_calculate_priority_score, specPriorityScore, if_empty_capped_bonus,
        overlap_delta_eq, stage_delta_eq, appeal_delta_eq]
    · simp only [_calculate_priority_score]
      exact le_max_left _ _
    · simp only [_calculate_priority_score]
      exact max_le (by norm_num) (min_le_left _ _)
  · simp [_calculate_priority_score]

/-- Claim C3 counterexample: running the coordinator merge with no specialist
output available (all inputs absent, every field at its documented default)
does NOT give the neutral base score 4 — the defaults are penalized
(4 − 1 − 3 − 1 = −1) and clamped. -/
theorem coordinator_defaults_score_not_four :
    (coordinator_merge {} Option.none Option.none Option.none []).priority_score ≠ 4 := by
  decide

/-- Claim C3 (amended): with no specialist output available the merge keeps
every documented default (overlap UNCLEAR, stage CONCEPT_SUMMARY, appeal
TECHNICAL_ONLY, empty feature and gap lists) and the priority score evaluates
to 4 − 1 − 3 − 1 = −1, clamped up to the minimum 1 — not the base 4. -/
theorem coordinator_defaults_score_one :
    (coordinator_merge {} Option.none Option.none Option.none []).priority_score = 1
    ∧ (coordinator_merge {} Option.none Option.none Option.none []).overlap_level
        = OverlapLevel.UNCLEAR
    ∧ (coordinator_merge {} Option.none Option.none Option.none []).development_stage
        = DevelopmentStage.CONCEPT_SUMMARY
    ∧ (coordinator_merge {} Option.none Option.none Option.none []).broad_appeal
        = BroadAppeal.TECHNICAL_ONLY
    ∧ (coordinator_merge {} Option.none Option.none Option.none []).features_new = []
    ∧ (coordinator_merge {} Option.none Option.none Option.none []).fills_portfolio_gap = [] := by
  refine ⟨?_, rfl, rfl, rfl, rfl, rfl⟩
  decide

/-- The HIGH-or-MEDIUM count splits into the separate HIGH and MEDIUM counts
used by the source (the two tokens are mutually exclusive). -/
theorem relevant_count_split (evals : List PersonaEvaluation) :
    relevantCount evals
      = (evals.filter (fun e => e.relevance == "HIGH")).length
        + (evals.filter (fun e => e.relevance == "MEDIUM")).length := by
  induction evals with
  | nil => rfl
  | cons e rest ih =>
      by_cases hH : e.relevance = "HIGH"
      · simp [relevantCount, List.filter_cons, hH, relevantCount] at ih ⊢
        omega
      · by_cases hM : e.relevance = "MEDIUM"
        · simp [relevantCount, List.filter_cons, hH, hM] at ih ⊢
          omega
        · simp [relevantCount, List.filter_cons, hH, hM] at ih ⊢
          omega

/-- Claim C9: `determine_broad_appeal` returns UNIVERSAL exactly when the
HIGH-or-MEDIUM count is at least 4 or the HIGH count at least 3, otherwise
BUSINESS_SPECIFIC exactly when the HIGH-or-MEDIUM count is at least 2,
otherwise TECHNICAL_ONLY; and the two spec scenarios
[HIGH, HIGH, HIGH, NONE, NONE] → UNIVERSAL and [MEDIUM, MEDIUM, NONE] →
BUSINESS_SPECIFIC hold. -/
theorem determine_broad_appeal_thresholds :
    (∀ evals : List PersonaEvaluation,
      (determine_broad_appeal evals = BroadAppeal.UNIVERSAL ↔
        (4 ≤ relevantCount evals ∨ 3 ≤ highCount evals))
      ∧ (determine_broad_appeal evals = BroadAppeal.BUSINESS_SPECIFIC ↔
        (¬(4 ≤ relevantCount evals ∨ 3 ≤ highCount evals) ∧ 2 ≤ relevantCount evals))
      ∧ (determine_broad_appeal evals = BroadAppeal.TECHNICAL_ONLY ↔
        (¬(4 ≤ relevantCount evals ∨ 3 ≤ highCount evals) ∧ relevantCount evals < 2)))
    ∧ determine_broad_appeal
        [{ relevance := "HIGH" }, { relevance := "HIGH" }, { relevance := "HIGH" },
         { relevance := "NONE" }, { relevance := "NONE" }] = BroadAppeal.UNIVERSAL
    ∧ determine_broad_appeal
        [{ relevance := "MEDIUM" }, { relevance := "MEDIUM" }, { relevance := "NONE" }]
        = BroadAppeal.BUSINESS_SPECIFIC := by
  refine ⟨?_, by decide, by decide⟩
  intro evals
  have hsplit := relevant_count_split evals
  cases evals with
  | nil => simp [determine_broad_appeal, relevantCount, highCount]
  | cons e rest =>
      simp only [determine_broad_appeal, List.isEmpty_cons, Bool.false_eq_true, if_false,
        highCount] at hsplit ⊢
      split_ifs with h1 h2
      · refine ⟨?_, ?_, ?_⟩ <;> simp_all [highCount]
      · refine ⟨?_, ?_, ?_⟩ <;> simp_all [highCount]
      · refine ⟨?_, ?_, ?_⟩ <;> simp_all [highCount]

/-- Enum round trip: serialize (uppercase, underscores to spaces) then
`from_string` restores every `OverlapLevel`. -/
theorem overlap_value_roundtrip :
    ∀ v : OverlapLevel,
      OverlapLevel.from_string (pyReplaceUnderscoreSpace (pyUpper v.value)) = v := by
  intro v; cases v <;> decide

/-- Enum round trip for `DevelopmentStage`. -/
theorem stage_value_roundtrip :
    ∀ v : DevelopmentStage,
      DevelopmentStage.from_string (pyReplaceUnderscoreSpace (pyUpper v.value)) = v := by
  intro v; cases v <;> decide

/-- Enum round trip for `BroadAppeal`. -/
theorem appeal_value_roundtrip :
    ∀ v : BroadAppeal,
      BroadAppeal.from_string (pyReplaceUnderscoreSpace (pyUpper v.value)) = v := by
  intro v; cases v <;> decide

/-- Enum round trip for `PlatformFit` (uppercase only). -/
theorem platform_value_roundtrip :
    ∀ v : PlatformFit, PlatformFit.from_string (pyUpper v.value) = v := by
  intro v; cases v <;> decide

/-- String lists injected as `PyVal.str` values project back unchanged. -/
theorem strListProj_roundtrip (l : List String) :
    strListProj (l.map PyVal.str) = some l := by
  induction l with
  | nil => rfl
  | cons x xs ih => simp [strListProj, ih]

/-- Claim C8: serializing any `FinalAnalysis` to its string-keyed wire mapping
and deserializing back reproduces the original in every enum, list, string and
integer field — a lossless round trip. -/
theorem final_analysis_roundtrip (a : FinalAnalysis) :
    dict_to_final_analysis (final_analysis_to_dict a) = some a := by
  obtain ⟨ol, ds, uco, ss, ag, cn, ts, ba, pwu, pwd, pe, asu, fi, fn, fr, pf, orc, ps, fpg, raw⟩ := a
  simp [dict_to_final_analysis, final_analysis_to_dict, getStrD, getPyListD, getStrListD,
    getIntD, pyDictFind, optBind, strListProj_roundtrip, overlap_value_roundtrip,
    stage_value_roundtrip, appeal_value_roundtrip, platform_value_roundtrip]

/-- Claim C5 counterexample: clarification text is NOT present if-and-only-if
required — when the model itself supplies clarification text but the overlap
is UNIQUE and the stage HAS_CODE (so none is required), `_build_analysis`
keeps the supplied text, leaving `clarification_needed` non-empty where the
claimed equivalence demands it be empty. -/
theorem clarification_kept_when_not_required_cex :
    (_build_analysis c5resp "").overlap_level = OverlapLevel.UNIQUE
    ∧ (_build_analysis c5resp "").development_stage = DevelopmentStage.HAS_CODE
    ∧ _needs_clarification (_build_analysis c5resp "").overlap_level
        (_build_analysis c5resp "").development_stage = false
    ∧ (_build_analysis c5resp "").clarification_needed ≠ "" := by
  refine ⟨rfl, rfl, rfl, ?_⟩
  decide

/-- A required default clarification is never the empty string. -/
theorem default_clarification_nonempty :
    ∀ ol ds, _needs_clarification ol ds = true → _generate_default_clarification ol ds ≠ "" := by
  intro ol ds
  cases ol <;> cases ds <;> decide

/-- Non-empty stripped text forces non-empty text. -/
theorem pyStrip_ne_empty {s : String} (h : pyStrip s ≠ "") : s ≠ "" := by
  intro hs
  exact h (by rw [hs]; rfl)

set_option maxRecDepth 40000 in
/-- Claim C5 (amended): in `_build_analysis`, (i) whenever clarification is
required by the final overlap/stage pair the `clarification_needed` field is
non-empty; (ii) when the model supplied no clarification text at all the field
is non-empty exactly when clarification is required; (iii) when the model
supplied only whitespace (or nothing) and clarification is required, the field
is exactly the synthesized default text; and (iv) the synthesized text names
the "Use Case Details" heading exactly when the overlap is UNCLEAR and the
"Technical Details" heading exactly when the stage is CONCEPT_SUMMARY or
DETAILED_CONCEPT.  (Unlike the original claim, a model-supplied clarification
is preserved even when none is required — see the counterexample.) -/
theorem clarification_amended (r : TechResponse) (note : String) :
    (_needs_clarification (_build_analysis r note).overlap_level
        (_build_analysis r note).development_stage = true →
      (_build_analysis r note).clarification_needed ≠ "")
    ∧ (r.clarification_needed.getD "" = "" →
        ((_build_analysis r note).clarification_needed ≠ "" ↔
          _needs_clarification (_build_analysis r note).overlap_level
            (_build_analysis r note).development_stage = true))
    ∧ (pyStrip (r.clarification_needed.getD "") = "" →
        _needs_clarification (_build_analysis r note).overlap_level
          (_build_analysis r note).development_stage = true →
        (_build_analysis r note).clarification_needed
          = _generate_default_clarification (_build_analysis r note).overlap_level
              (_build_analysis r note).development_stage)
    ∧ (∀ ol ds, _needs_clarification ol ds = true →
        ((pyIn "Use Case Details" (_generate_default_clarification ol ds) = true ↔
            ol = OverlapLevel.UNCLEAR)
          ∧ (pyIn "Technical Details" (_generate_default_clarification ol ds) = true ↔
              (ds = DevelopmentStage.CONCEPT_SUMMARY ∨ ds = DevelopmentStage.DETAILED_CONCEPT)))) := by
  refine ⟨?_, ?_, ?_, ?_⟩
  · intro hneeds
    simp only [_build_analysis] at hneeds ⊢
    by_cases hstrip : pyStrip (r.clarification_needed.getD "") = ""
    · simp only [hneeds, hstrip, beq_self_eq_true, Bool.and_self, if_true]
      exact default_clarification_nonempty _ _ hneeds
    · have : (pyStrip (r.clarification_needed.getD "") == "") = false := by
        simp [hstrip]
      simp only [hneeds, this, Bool.and_false, if_false]
      exact pyStrip_ne_empty hstrip
  · intro hC
    have hpe : (pyStrip "" == "") = true := rfl
    simp only [_build_analysis, hC]
    by_cases hn : _needs_clarification
        (if (!(r.use_case_overlap.getD []).isEmpty) &&
            (OverlapLevel.from_string (r.overlap_level.getD "UNCLEAR") == OverlapLevel.UNIQUE)
          then OverlapLevel.POSSIBLE_OVERLAP
          else OverlapLevel.from_string (r.overlap_level.getD "UNCLEAR"))
        (DevelopmentStage.from_string (r.development_stage.getD "CONCEPT_SUMMARY")) = true
    · simp [hn, hpe, default_clarification_nonempty _ _ hn]
    · rw [Bool.not_eq_true] at hn
      simp [hn, hpe]
  · intro hstrip hneeds
    simp only [_build_analysis] at hneeds ⊢
    simp only [hneeds, hstrip, beq_self_eq_true, Bool.and_self, if_true]
  · intro ol ds _h
    cases ol <;> cases ds <;> exact ⟨by decide, by decide⟩

/-- One loop turn of `chat_with_tools` when the model requests tool calls:
append the assistant turn and the tool results and continue with one less
iteration and one more client call. -/
theorem chat_with_tools_succ_ne (client : Nat → Bool → List ChatMsg → ModelReply)
    (tools : List PyTool) (fuel calls : Nat) (messages : List ChatMsg)
    (h : (client calls true messages).tool_calls ≠ []) :
    chat_with_tools client tools (fuel + 1) calls messages
      = chat_with_tools client tools fuel (calls + 1)
          (messages
            ++ [ChatMsg.assistant (client calls true messages).content
                  ((client calls true messages).tool_calls)]
            ++ tool_results_to_messages
                (execute_tools ((client calls true messages).tool_calls) tools)) := by
  simp only [chat_with_tools]
  cases htc : (client calls true messages).tool_calls with
  | nil => exact absurd htc h
  | cons tc rest => rfl

/-- For a client that requests tool calls on every tools-enabled turn, the
loop with budget `N` starting after `calls` prior client calls makes exactly
`N` further tools-enabled calls, then one tools-disabled call whose content
(or the empty string) is returned together with the transcript passed to that
final call. -/
theorem chat_with_tools_budget_aux (client : Nat → Bool → List ChatMsg → ModelReply)
    (tools : List PyTool) (h : ∀ i m, (client i true m).tool_calls ≠ []) :
    ∀ (N calls : Nat) (messages : List ChatMsg),
      ∃ T, chat_with_tools client tools N calls messages
        = (((client (calls + N) false T).content).getD "", T, calls + N + 1) := by
  intro N
  induction N with
  | zero =>
      intro calls messages
      exact ⟨messages, by simp [chat_with_tools]⟩
  | succ n ih =>
      intro calls messages
      rw [chat_with_tools_succ_ne client tools n calls messages (h calls messages)]
      obtain ⟨T, hT⟩ := ih (calls + 1)
        (messages
          ++ [ChatMsg.assistant (client calls true messages).content
                ((client calls true messages).tool_calls)]
          ++ tool_results_to_messages
              (execute_tools ((client calls true messages).tool_calls) tools))
      refine ⟨T, ?_⟩
      rw [hT]
      have harith : calls + 1 + n = calls + (n + 1) := by omega
      rw [harith]

/-- Claim C6: with iteration budget `N` and a model that requests at least one
tool call on every tools-enabled turn, `chat_with_tools` performs exactly `N`
tool-calling model turns followed by exactly one tools-disabled call — `N + 1`
client calls in total, never more — and returns that final call's text content
(the empty string when the model returned no content). -/
theorem chat_with_tools_budget (client : Nat → Bool → List ChatMsg → ModelReply)
    (tools : List PyTool) (N : Nat) (messages : List ChatMsg)
    (h : ∀ i m, (client i true m).tool_calls ≠ []) :
    ∃ T, chat_with_tools client tools N 0 messages
      = (((client N false T).content).getD "", T, N + 1) := by
  obtain ⟨T, hT⟩ := chat_with_tools_budget_aux client tools h N 0 messages
  exact ⟨T, by simpa using hT⟩

/-- Witness for claim C6 at the spec scenario `max_iterations = 3`: the
always-tool-calling client is driven through 3 tool turns and one final
tools-disabled call (4 client calls), returning its text. -/
theorem chat_with_tools_budget_witness :
    (∀ i m, (c6client i true m).tool_calls ≠ [])
    ∧ ∃ T, chat_with_tools c6client [] 3 0 []
        = (((c6client 3 false T).content).getD "", T, 3 + 1) :=
  ⟨fun i m => by simp [c6client], chat_with_tools_budget c6client [] 3 [] (fun i m => by simp [c6client])⟩

/-- Setting index `i` then reading it back gives the new value when `i` is in
range. -/
theorem listSet_getElem?_self {α : Type} (l : List α) (i : Nat) (a : α) (h : i < l.length) :
    (l.set i a)[i]? = some a := by
  induction l generalizing i with
  | nil => simp at h
  | cons x xs ih =>
      cases i with
      | zero => simp
      | succ n => simpa using ih n (by simpa using h)

/-- Setting index `i` leaves every other index unchanged. -/
theorem listSet_getElem?_ne {α : Type} (l : List α) (i k : Nat) (a : α) (h : i ≠ k) :
    (l.set i a)[k]? = l[k]? := by
  induction l generalizing i k with
  | nil => rfl
  | cons x xs ih =>
      cases i with
      | zero =>
          cases k with
          | zero => exact absurd rfl h
          | succ m => simp
      | succ n =>
          cases k with
          | zero => simp
          | succ m => simpa using ih n m (fun hc => h (by rw [hc]))

/-- The order-map key of an issue that carries a number is that number,
whatever the enumeration index. -/
theorem issueKey_of_some {is : Issue} {v : Nat} (h : is.number = some v) (i : Nat) :
    issueKey is i = v := by
  simp [issueKey, h]

/-- The order-map scan leaves the accumulator alone when no listed issue has
the key. -/
theorem issueOrderAux_no_match (l : List Issue) (key : Nat) :
    ∀ (i : Nat) (acc : Option Nat),
      (∀ is ∈ l, is.number.isSome ∧ is.number.getD 0 ≠ key) →
      issueOrderAux l i key acc = acc := by
  induction l with
  | nil => intro i acc _h; rfl
  | cons a l ih =>
      intro i acc h
      obtain ⟨hs, hne⟩ := h a (List.mem_cons_self a l)
      obtain ⟨v, hv⟩ := Option.isSome_iff_exists.mp hs
      have hk : issueKey a i ≠ key := by
        rw [issueKey_of_some hv]
        simpa [hv] using hne
      rw [show issueOrderAux (a :: l) i key acc
          = issueOrderAux l (i + 1) key (if issueKey a i = key then some i else acc) from rfl]
      rw [if_neg hk]
      exact ih (i + 1) acc (fun x hx => h x (List.mem_cons_of_mem a hx))

/-- With all numbers present and pairwise distinct, looking the `j`-th issue's
number up in the order map yields `i + j` (shifted by the start index). -/
theorem issueOrderAux_get (l : List Issue) :
    ∀ (j : Nat) (hj : j < l.length) (i : Nat) (acc : Option Nat),
      (∀ is ∈ l, is.number.isSome) →
      (l.map (fun is => is.number.getD 0)).Nodup →
      issueOrderAux l i ((l.get ⟨j, hj⟩).number.getD 0) acc = some (i + j) := by
  induction l with
  | nil => intro j hj; exact absurd hj (by simp)
  | cons a l ih =>
      intro j hj i acc hsome hnodup
      rw [List.map_cons, List.nodup_cons] at hnodup
      obtain ⟨hnotin, hnd⟩ := hnodup
      obtain ⟨v, hv⟩ := Option.isSome_iff_exists.mp (hsome a (List.mem_cons_self a l))
      cases j with
      | zero =>
          have hkey : (((a :: l).get ⟨0, hj⟩)).number.getD 0 = v := by simp [hv]
          rw [show issueOrderAux (a :: l) i (((a :: l).get ⟨0, hj⟩).number.getD 0) acc
              = issueOrderAux l (i + 1) (((a :: l).get ⟨0, hj⟩).number.getD 0)
                  (if issueKey a i = ((a :: l).get ⟨0, hj⟩).number.getD 0 then some i else acc)
              from rfl]
          rw [hkey, issueKey_of_some hv, if_pos rfl]
          have hnm : ∀ x ∈ l, x.number.isSome ∧ x.number.getD 0 ≠ v := by
            intro x hx
            refine ⟨hsome x (List.mem_cons_of_mem a hx), ?_⟩
            intro hxv
            apply hnotin
            rw [show a.number.getD 0 = v by simp [hv], ← hxv]
            exact List.mem_map_of_mem _ hx
          rw [issueOrderAux_no_match l v (i + 1) (some i) hnm]
          simp
      | succ j' =>
          have hj' : j' < l.length := by simpa using hj
          have hkey : ((a :: l).get ⟨j' + 1, hj⟩) = l.get ⟨j', hj'⟩ := rfl
          have hne : issueKey a i ≠ (l.get ⟨j', hj'⟩).number.getD 0 := by
            rw [issueKey_of_some hv]
            intro hc
            apply hnotin
            rw [show (a.number.getD 0) = v by simp [hv], hc]
            exact List.mem_map_of_mem _ (l.get_mem _ _)
          rw [hkey]
          rw [show issueOrderAux (a :: l) i ((l.get ⟨j', hj'⟩).number.getD 0) acc
              = issueOrderAux l (i + 1) ((l.get ⟨j', hj'⟩).number.getD 0)
                  (if issueKey a i = (l.get ⟨j', hj'⟩).number.getD 0 then some i else acc)
              from rfl]
          rw [if_neg hne]
          rw [ih j' hj' (i + 1) _ (fun x hx => hsome x (List.mem_cons_of_mem a hx)) hnd]
          congr 1
          omega

/-- With all numbers present and pairwise distinct, the order map sends the
`j`-th issue's number to `j`. -/
theorem issueOrderLookup_get (issues : List Issue) (j : Nat) (hj : j < issues.length)
    (hsome : ∀ is ∈ issues, is.number.isSome)
    (hnodup : (issues.map (fun is => is.number.getD 0)).Nodup) :
    issueOrderLookup issues ((issues.get ⟨j, hj⟩).number.getD 0) = some j := by
  have h := issueOrderAux_get issues j hj 0 Option.none hsome hnodup
  simpa [issueOrderLookup] using h

/-- Characterization of the gathering loop under distinct present numbers:
it never raises, preserves the result-slot count, and a slot holds the
analysis of its issue exactly when that issue has completed (other slots keep
their previous content). -/
theorem gatherLoop_char {α : Type} (issues : List Issue) (analyze : Issue → α)
    (hsome : ∀ is ∈ issues, is.number.isSome)
    (hnodup : (issues.map (fun is => is.number.getD 0)).Nodup) :
    ∀ (completed : List Issue) (results : List (Option α)),
      results.length = issues.length →
      (∀ is ∈ completed, is ∈ issues) →
      ∃ res, gatherLoop issues analyze completed results = Except.ok res
        ∧ res.length = results.length
        ∧ ∀ (k : Nat) (hk : k < issues.length),
            res[k]? = if issues.get ⟨k, hk⟩ ∈ completed
              then some (some (analyze (issues.get ⟨k, hk⟩)))
              else results[k]? := by
  intro completed
  induction completed with
  | nil =>
      intro results _hlen _hsub
      exact ⟨results, rfl, rfl, fun k hk => by simp⟩
  | cons is rest ih =>
      intro results hlen hsub
      have hmem : is ∈ issues := hsub is (List.mem_cons_self _ _)
      obtain ⟨⟨j, hj⟩, hget⟩ := List.mem_iff_get.mp hmem
      have hlook : issueOrderLookup issues (is.number.getD 0) = some j := by
        rw [← hget]
        exact issueOrderLookup_get issues j hj hsome hnodup
      have hstep : gatherLoop issues analyze (is :: rest) results
          = gatherLoop issues analyze rest (results.set j (some (analyze is))) := by
        rw [show gatherLoop issues analyze (is :: rest) results
            = (match issueOrderLookup issues (is.number.getD 0) with
               | some idx => gatherLoop issues analyze rest (results.set idx (some (analyze is)))
               | Option.none => Except.error "KeyError") from rfl]
        rw [hlook]
      obtain ⟨res, hok, hrlen, hchar⟩ := ih (results.set j (some (analyze is)))
        (by simpa using hlen) (fun x hx => hsub x (List.mem_cons_of_mem _ hx))
      refine ⟨res, by rw [hstep]; exact hok, by simpa using hrlen, ?_⟩
      intro k hk
      rw [hchar k hk]
      simp only [List.get_eq_getElem] at hget ⊢
      have hvnodup : issues.Nodup := hnodup.of_map
      by_cases hkr : issues[k] ∈ rest
      · simp [hkr]
      · by_cases hkis : issues[k] = is
        · have hget2 : issues.get ⟨k, hk⟩ = issues.get ⟨j, hj⟩ := by
            simp only [List.get_eq_getElem]
            rw [hkis, ← hget]
          have hfin := (List.Nodup.get_inj_iff hvnodup).mp hget2
          have hkj : k = j := congrArg Fin.val hfin
          subst hkj
          have hset := listSet_getElem?_self results k (some (analyze is)) (by omega)
          simp [hkis, hkr, hset]
        · have hkj : k ≠ j := by
            intro hc
            apply hkis
            subst hc
            exact hget
          rw [listSet_getElem?_ne results j k _ (Ne.symm hkj)]
          simp [hkis, hkr]

/-- Claim C7 (amended): provided every submitted issue carries a `number` and
those numbers are pairwise distinct, the report orchestrator returns, for
every completion order of the per-issue work (any permutation of the input),
the full result list in input order — slot `i` holds the analysis of input
issue `i`.  (Without distinct present numbers this fails — see the
counterexample and claim C10.) -/
theorem report_order_preserved_distinct {α : Type} (issues : List Issue) (analyze : Issue → α)
    (completed : List Issue)
    (hsome : ∀ is ∈ issues, is.number.isSome)
    (hnodup : (issues.map (fun is => is.number.getD 0)).Nodup)
    (hperm : completed.Perm issues) :
    generate_report_analysis issues analyze completed
      = Except.ok (issues.map (fun is => some (analyze is))) := by
  obtain ⟨res, hok, hrlen, hchar⟩ := gatherLoop_char issues analyze hsome hnodup completed
    (List.replicate issues.length Option.none) (by simp)
    (fun is hx => hperm.mem_iff.mp hx)
  rw [show generate_report_analysis issues analyze completed
      = gatherLoop issues analyze completed (List.replicate issues.length Option.none) from rfl]
  rw [hok]
  congr 1
  apply List.ext_getElem?
  intro k
  by_cases hk : k < issues.length
  · rw [hchar k hk]
    have hmem : issues.get ⟨k, hk⟩ ∈ completed :=
      hperm.mem_iff.mpr (issues.get_mem _ _)
    simp only [List.get_eq_getElem] at hmem ⊢
    simp [hmem, List.getElem?_map, List.getElem?_eq_getElem hk]
  · have h1 : res.length ≤ k := by
      rw [hrlen, List.length_replicate]
      omega
    have h2 : (issues.map (fun is => some (analyze is))).length ≤ k := by
      rw [List.length_map]
      omega
    rw [List.getElem?_eq_none h1, List.getElem?_eq_none h2]

/-- Witness for claim C7 (amended): issues numbered [7, 3, 9], completing in
the order [9, 7, 3], still come back ordered [7, 3, 9]. -/
theorem report_order_preserved_distinct_witness :
    (∀ is ∈ c7issues, is.number.isSome)
    ∧ (c7issues.map (fun is => is.number.getD 0)).Nodup
    ∧ ([{ number := some 9 }, { number := some 7 }, { number := some 3 }] : List Issue).Perm c7issues
    ∧ generate_report_analysis c7issues (fun is => is.number.getD 0)
        [{ number := some 9 }, { number := some 7 }, { number := some 3 }]
      = Except.ok (c7issues.map (fun is => some (is.number.getD 0))) :=
  ⟨by decide, by decide, by decide,
    report_order_preserved_distinct c7issues (fun is => is.number.getD 0)
      [{ number := some 9 }, { number := some 7 }, { number := some 3 }]
      (by decide) (by decide) (by decide)⟩

/-- Claim C7 counterexample: with two issues sharing number 5, even in
submission-order completion the returned list is [None, result of the second
issue] — position 0 does not hold issue 0's result (it holds nothing, and the
first issue's result is lost), refuting the for-every-input-list claim. -/
theorem report_order_duplicate_cex :
    generate_report_analysis [c7dupA, c7dupB] (fun is => is.title.getD "") [c7dupA, c7dupB]
      = Except.ok [Option.none, some "second"] := by
  rfl

/-- Claim C10: the order-restoration guarantee needs present, pairwise
distinct issue numbers — two issues sharing number 7 leave a `None` entry in
the returned list (the later completion overwrites the shared slot), and an
issue with no `number` key makes the lookup with default 0 raise `KeyError`,
aborting the whole batch. -/
theorem report_order_failure_modes :
    generate_report_analysis [c10a, c10b] (fun is => is.title.getD "") [c10a, c10b]
      = Except.ok [Option.none, some "dup-late"]
    ∧ generate_report_analysis [c10c, c10d] (fun is => is.title.getD "") [c10c, c10d]
      = Except.error "KeyError" :=
  ⟨rfl, rfl⟩

/-- Fallback characterization: the whole-text pass yields the stripped
text's mapping when there is one, the default otherwise. -/
theorem parseWholeFallback_spec (content : List Char) (default : PyVal)
    (hd : default.isDict = true) :
    (parseWholeFallback content default).isDict = true
    ∧ (parseWholeFallback content default = default
       ∨ ∃ d, parseWholeFallback content default = PyVal.dict d
           ∧ jsonLoads (pyStripChars content) = some (PyVal.dict d)) := by
  unfold parseWholeFallback
  cases hW : jsonLoads (pyStripChars content) with
  | none => exact ⟨hd, Or.inl rfl⟩
  | some v =>
      cases v with
      | dict d => exact ⟨rfl, Or.inr ⟨d, rfl, rfl⟩⟩
      | str s => exact ⟨hd, Or.inl rfl⟩
      | int n => exact ⟨hd, Or.inl rfl⟩
      | bool b => exact ⟨hd, Or.inl rfl⟩
      | pynone => exact ⟨hd, Or.inl rfl⟩
      | list xs => exact ⟨hd, Or.inl rfl⟩

/-- Candidate-branch characterization: the result is the candidate's mapping,
the whole-text mapping, or the default. -/
theorem parseCandidate_spec (content js : List Char) (default : PyVal)
    (hd : default.isDict = true) :
    (parseCandidate content js default).isDict = true
    ∧ (parseCandidate content js default = default
        ∨ ∃ d, parseCandidate content js default = PyVal.dict d
            ∧ (jsonLoads js = some (PyVal.dict d)
               ∨ jsonLoads (pyStripChars content) = some (PyVal.dict d))) := by
  obtain ⟨hfb1, hfb2⟩ := parseWholeFallback_spec content default hd
  unfold parseCandidate
  cases hemp : js.isEmpty with
  | true =>
      refine ⟨hfb1, ?_⟩
      rcases hfb2 with h | ⟨d, hdd, hw⟩
      · exact Or.inl h
      · exact Or.inr ⟨d, hdd, Or.inr hw⟩
  | false =>
      cases hL : jsonLoads js with
      | none =>
          refine ⟨hfb1, ?_⟩
          rcases hfb2 with h | ⟨d, hdd, hw⟩
          · exact Or.inl h
          · exact Or.inr ⟨d, hdd, Or.inr hw⟩
      | some v =>
          cases v with
          | dict d => exact ⟨rfl, Or.inr ⟨d, rfl, Or.inl rfl⟩⟩
          | str s =>
              refine ⟨hfb1, ?_⟩
              rcases hfb2 with h | ⟨d, hdd, hw⟩
              · exact Or.inl h
              · exact Or.inr ⟨d, hdd, Or.inr hw⟩
          | int n =>
              refine ⟨hfb1, ?_⟩
              rcases hfb2 with h | ⟨d, hdd, hw⟩
              · exact Or.inl h
              · exact Or.inr ⟨d, hdd, Or.inr hw⟩
          | bool b =>
              refine ⟨hfb1, ?_⟩
              rcases hfb2 with h | ⟨d, hdd, hw⟩
              · exact Or.inl h
              · exact Or.inr ⟨d, hdd, Or.inr hw⟩
          | pynone =>
              refine ⟨hfb1, ?_⟩
              rcases hfb2 with h | ⟨d, hdd, hw⟩
              · exact Or.inl h
              · exact Or.inr ⟨d, hdd, Or.inr hw⟩
          | list xs =>
              refine ⟨hfb1, ?_⟩
              rcases hfb2 with h | ⟨d, hdd, hw⟩
              · exact Or.inl h
              · exact Or.inr ⟨d, hdd, Or.inr hw⟩

/-- Claim C2: for every input text and dict default, `parse_json_response`
returns a dict — either a mapping parsed from an extracted candidate or from
the whole stripped text, or the supplied default unmodified.  Every fallible
step (the candidate parse and the whole-text parse, Python `JSONDecodeError`)
is on the `Option` failure channel and caught, so the embedding is total:
no exception escapes and no non-dict is ever returned. -/
theorem parse_json_response_total_dict (content : List Char) (default : PyVal)
    (hd : default.isDict = true) :
    (parse_json_response content default).isDict = true
    ∧ (parse_json_response content default = default
        ∨ ∃ d, parse_json_response content default = PyVal.dict d
            ∧ ((∃ js, extract_json_block content = some js ∧ jsonLoads js = some (PyVal.dict d))
               ∨ jsonLoads (pyStripChars content) = some (PyVal.dict d))) := by
  unfold parse_json_response
  cases hE : extract_json_block content with
  | none =>
      obtain ⟨hfb1, hfb2⟩ := parseWholeFallback_spec content default hd
      refine ⟨hfb1, ?_⟩
      rcases hfb2 with h | ⟨d, hdd, hw⟩
      · exact Or.inl h
      · exact Or.inr ⟨d, hdd, Or.inr hw⟩
  | some js =>
      obtain ⟨hc1, hc2⟩ := parseCandidate_spec content js default hd
      refine ⟨hc1, ?_⟩
      rcases hc2 with h | ⟨d, hdd, hjw⟩
      · exact Or.inl h
      · rcases hjw with hj | hw
        · exact Or.inr ⟨d, hdd, Or.inl ⟨js, rfl, hj⟩⟩
        · exact Or.inr ⟨d, hdd, Or.inr hw⟩

/-- Witness for claim C2: prose with no JSON returns the supplied (dict)
default, and the result is a dict. -/
theorem parse_json_response_total_dict_witness :
    (PyVal.dict []).isDict = true
    ∧ ((parse_json_response "no json here".data (PyVal.dict [])).isDict = true
       ∧ (parse_json_response "no json here".data (PyVal.dict []) = PyVal.dict []
          ∨ ∃ d, parse_json_response "no json here".data (PyVal.dict []) = PyVal.dict d
              ∧ ((∃ js, extract_json_block "no json here".data = some js
                    ∧ jsonLoads js = some (PyVal.dict d))
                 ∨ jsonLoads (pyStripChars "no json here".data) = some (PyVal.dict d)))) :=
  ⟨rfl, parse_json_response_total_dict "no json here".data (PyVal.dict []) rfl⟩

/-- Claim C4 counterexample: on text holding a fenced array and then a bare
object, the fenced-array strategy's candidate parses to a non-mapping and is
rejected — but the later outermost-braces strategy is NOT retried, even though
it would recover the mapping, so the default comes back instead of the
dict. -/
theorem parse_strategies_not_retried_cex :
    parse_json_response c4content (PyVal.dict []) = PyVal.dict []
    ∧ extract_json_block c4content = some "[1, 2]".data
    ∧ outerSpan '\x7b' '\x7d' c4content = some "\x7b\"a\": 1\x7d".data
    ∧ jsonLoads "\x7b\"a\": 1\x7d".data = some (PyVal.dict [("a", PyVal.int 1)])
    ∧ PyVal.dict [("a", PyVal.int 1)] ≠ PyVal.dict [] := by
  refine ⟨rfl, rfl, rfl, rfl, ?_⟩
  intro h
  simp at h

/-- Claim C4 (amended): `extract_json_block` attempts the strategies in order
but returns the first syntactic match without checking parseability, and
`parse_json_response` parses only that single candidate: when it parses to a
non-mapping (or fails to parse), the remaining extraction strategies are
skipped and only the whole-stripped-text parse is attempted before returning
the default — a dict recoverable only by a later extraction strategy is not
returned. -/
theorem parse_single_candidate_fallback (content : List Char) (default : PyVal)
    (js : List Char) (hE : extract_json_block content = some js)
    (hne : js.isEmpty = false) (hnd : pyOptIsDict (jsonLoads js) = false) :
    parse_json_response content default = parseWholeFallback content default := by
  unfold parse_json_response
  rw [hE]
  show parseCandidate content js default = parseWholeFallback content default
  unfold parseCandidate
  rw [hne]
  cases hL : jsonLoads js with
  | none => rfl
  | some v =>
      cases v with
      | dict d =>
          rw [hL] at hnd
          exact absurd hnd (by simp [pyOptIsDict, PyVal.isDict])
      | str s => rfl
      | int n => rfl
      | bool b => rfl
      | pynone => rfl
      | list xs => rfl

/-- Witness for claim C4 (amended): the fenced array `[3]` is the extracted
candidate, it is non-empty and parses to a non-mapping, and the parse falls
back to the whole-text pass (which fails here, so the default is returned). -/
theorem parse_single_candidate_fallback_witness :
    extract_json_block c4bcontent = some "[3]".data
    ∧ "[3]".data.isEmpty = false
    ∧ pyOptIsDict (jsonLoads "[3]".data) = false
    ∧ parse_json_response c4bcontent (PyVal.dict [])
        = parseWholeFallback c4bcontent (PyVal.dict []) :=
  ⟨rfl, rfl, rfl,
    parse_single_candidate_fallback c4bcontent (PyVal.dict []) "[3]".data rfl rfl rfl⟩

/-- Witness for claim C5 (amended) at a response with UNCLEAR overlap and no
model clarification: the hypotheses hold and the built analysis carries
exactly the synthesized default clarification. -/
theorem clarification_amended_witness :
    pyStrip (c5wresp.clarification_needed.getD "") = ""
    ∧ _needs_clarification (_build_analysis c5wresp "").overlap_level
        (_build_analysis c5wresp "").development_stage = true
    ∧ (_build_analysis c5wresp "").clarification_needed
        = _generate_default_clarification (_build_analysis c5wresp "").overlap_level
            (_build_analysis c5wresp "").development_stage :=
  ⟨rfl, rfl, (clarification_amended c5wresp "").2.2.1 rfl rfl⟩
